import Mathlib

/-!
Verification of the CapsNet repository (`capsulenet.py`).

The file embeds the program in Lean 4:
* `margin_loss` (lines 52-63 of `capsulenet.py`) is embedded over exact
  rationals, one TensorFlow broadcast operation at a time.
* the network layers imported from `capsulelayers.py` (a file the repository
  references but does not ship) are modelled from the specification, over ℝ.
* the model assembly `CapsNet` (lines 15-49) is embedded on top of those
  layers, and `manipulate_latent` (lines 66-96) is embedded at the level of
  Python name resolution.
-/

namespace CapsVerif

/-! ### Rank-2 tensors over ℚ and the TensorFlow primitives used by margin_loss -/

/-- Elementwise map over a rank-2 tensor (a batch of rows), as a TensorFlow
unary broadcast op acts on a `[batch, n_class]` tensor. -/
def tmap (f : ℚ → ℚ) (t : List (List ℚ)) : List (List ℚ) :=
  t.map (fun r => r.map f)

/-- Elementwise combination of two rank-2 tensors of the same shape, as a
TensorFlow binary op acts on two `[batch, n_class]` tensors. -/
def tzip (f : ℚ → ℚ → ℚ) (a b : List (List ℚ)) : List (List ℚ) :=
  List.zipWith (fun ra rb => List.zipWith f ra rb) a b

/-- `tf.reduce_sum(L, 1)`: sum away the class axis. -/
def reduce_sum1 (t : List (List ℚ)) : List ℚ := t.map List.sum

/-- `tf.reduce_mean` of a rank-1 tensor: sum divided by length. -/
def reduce_mean (v : List ℚ) : ℚ := v.sum / (v.length : ℚ)

/-- `margin_loss` from `capsulenet.py` lines 60-63, operation by operation:
`L = y_true * tf.square(tf.maximum(0., 0.9 - y_pred))
   + 0.5 * (1 - y_true) * tf.square(tf.maximum(0., y_pred - 0.1))`
followed by `tf.reduce_mean(tf.reduce_sum(L, 1))`. -/
def margin_loss (y_true y_pred : List (List ℚ)) : ℚ :=
  let L := tzip (· + ·)
    (tzip (· * ·) y_true
      (tmap (fun xv => xv * xv)
        (tmap (fun xv => max 0 xv)
          (tmap (fun p => 9/10 - p) y_pred))))
    (tzip (· * ·)
      (tmap (fun xv => 1/2 * xv) (tmap (fun yv => 1 - yv) y_true))
      (tmap (fun xv => xv * xv)
        (tmap (fun xv => max 0 xv)
          (tmap (fun p => p - 1/10) y_pred))))
  reduce_mean (reduce_sum1 L)

/-- The per-entry margin-loss term as the specification writes it:
`y·max(0, 0.9 − p)² + 0.5·(1−y)·max(0, p − 0.1)²`. -/
def marginTerm (y p : ℚ) : ℚ :=
  y * (max 0 (9/10 - p) * max 0 (9/10 - p)) +
    1/2 * (1 - y) * (max 0 (p - 1/10) * max 0 (p - 1/10))

/-- Per-example class sums of the margin-loss terms. -/
def specRows (y_true y_pred : List (List ℚ)) : List ℚ :=
  List.zipWith (fun yr pr => (List.zipWith marginTerm yr pr).sum) y_true y_pred

/-- The margin loss as the specification describes it: the sum over classes is
taken first, then the average over the batch. -/
def margin_loss_spec (y_true y_pred : List (List ℚ)) : ℚ :=
  (specRows y_true y_pred).sum / (y_true.length : ℚ)

/-- Overwrite entry `(i, j)` of a rank-2 tensor. -/
def updateAt (m : List (List ℚ)) (i j : ℕ) (v : ℚ) : List (List ℚ) :=
  m.set i ((m.getD i []).set j v)

/-! ### The network over ℝ.

`capsulenet.py` imports `CapsuleLayer`, `PrimaryCap`, `Length` and `Mask`
from `capsulelayers.py`, a file the repository does not ship; those four
layers are modelled from the specification (sections 4.1-4.5).  The model
assembly `CapsNet` and the decoder are embedded from `capsulenet.py`
lines 15-49. -/

/-- A rank-3 tensor `[H, W, C]`: one image or feature map. -/
abbrev Tensor3 := List (List (List ℝ))

/-- Read an entry of a rank-3 tensor, 0 outside the bounds. -/
def get3 (t : Tensor3) (i j c : ℕ) : ℝ := ((t.getD i []).getD j []).getD c 0

/-- Read an entry of a rank-2 tensor, 0 outside the bounds. -/
def get2 (t : List (List ℝ)) (j d : ℕ) : ℝ := (t.getD j []).getD d 0

/-- Keras backend epsilon. -/
noncomputable def eps : ℝ := 1 / 10000000

/-- ReLU activation. -/
noncomputable def reluF (x : ℝ) : ℝ := max 0 x

/-- Sigmoid activation. -/
noncomputable def sigmoidF (x : ℝ) : ℝ := 1 / (1 + Real.exp (-x))

/-- Sum of squares of a vector's entries (its squared Euclidean norm). -/
def sumSq (v : List ℝ) : ℝ := (v.map (fun xv => xv * xv)).sum

/-- Dot product of two vectors. -/
def dotL (a b : List ℝ) : ℝ := (List.zipWith (· * ·) a b).sum

/-- Dot product of a vector with an index function (used for weight tensors,
which are kept as total index functions). -/
def dotFun (v : List ℝ) (w : ℕ → ℝ) : ℝ :=
  ((List.range v.length).map (fun c => w c * v.getD c 0)).sum

/-- Modelled from the spec (section 4.1 Squash; `capsulelayers.py` is absent
from `src/`): for a vector `v` of squared norm `s`, the output is
`(s / (1+s)) * (v / sqrt (s + eps))`, same shape and direction as `v`. -/
noncomputable def squash (v : List ℝ) : List ℝ :=
  let s := sumSq v
  v.map (fun xv => s / (1 + s) * (xv / Real.sqrt (s + eps)))

/-- Output spatial size of a valid convolution along one axis. -/
def convOutDim (h k s : ℕ) : ℕ := (h - k) / s + 1

/-- Triple sum over `range a × range b × range c`. -/
def sum3 (a b c : ℕ) (g : ℕ → ℕ → ℕ → ℝ) : ℝ :=
  ((List.range a).map (fun i =>
    ((List.range b).map (fun j =>
      ((List.range c).map (fun k => g i j k)).sum)).sum)).sum

/-- A standard valid 2D convolution with `nf` filters, kernel size `k`,
stride `s` and pointwise activation `act`; the kernel and bias are index
functions `w : filter → di → dj → cin → ℝ` and `b : filter → ℝ`. -/
noncomputable def conv2d (w : ℕ → ℕ → ℕ → ℕ → ℝ) (b : ℕ → ℝ)
    (k s nf : ℕ) (act : ℝ → ℝ) (x : Tensor3) : Tensor3 :=
  let H := x.length
  let W := (x.getD 0 []).length
  let C := ((x.getD 0 []).getD 0 []).length
  (List.range (convOutDim H k s)).map (fun i =>
    (List.range (convOutDim W k s)).map (fun j =>
      (List.range nf).map (fun f =>
        act (b f + sum3 k k C (fun di dj c =>
          w f di dj c * get3 x (i * s + di) (j * s + dj) c)))))

/-- Row-major flattening of a rank-3 tensor. -/
def flatten3 (t : Tensor3) : List ℝ := (t.map List.flatten).flatten

/-- Split a flat vector into consecutive chunks of length `d` (the TensorFlow
reshape to `[-1, d]`). -/
def chunk (d : ℕ) (flat : List ℝ) : List (List ℝ) :=
  (List.range (flat.length / d)).map (fun i => (flat.drop (i * d)).take d)

/-- Modelled from the spec (section 4.2 PrimaryCapsule Extractor;
`capsulelayers.py` is absent from `src/`): a valid convolution with
`n_channels * dim_capsule` linear filters, reshaped to
`[num_capsules, dim_capsule]` and squashed capsule by capsule. -/
noncomputable def primaryCap (w : ℕ → ℕ → ℕ → ℕ → ℝ) (b : ℕ → ℝ)
    (dim_capsule n_channels k s : ℕ) (x : Tensor3) : List (List ℝ) :=
  let conv := conv2d w b k s (n_channels * dim_capsule) (fun t => t) x
  (chunk dim_capsule (flatten3 conv)).map squash

/-- Prediction vectors of the routing layer (spec section 4.3 step 0):
`u_hat[i,j] = W[i,j] · u[i]`, a `dimOut`-vector for each pair `(i, j)`. -/
noncomputable def uhatF (W : ℕ → ℕ → ℕ → ℕ → ℝ) (dimOut : ℕ)
    (u : List (List ℝ)) (i j : ℕ) : List ℝ :=
  (List.range dimOut).map (fun r => dotFun (u.getD i []) (fun c => W i j r c))

/-- Coupling coefficients (spec section 4.3 step 2.1): softmax of the routing
logits over the output-capsule axis. -/
noncomputable def coupling (nOut : ℕ) (b : ℕ → ℕ → ℝ) (i j : ℕ) : ℝ :=
  Real.exp (b i j) / ((List.range nOut).map (fun j2 => Real.exp (b i j2))).sum

/-- Sum of a list of `dim`-vectors, entry by entry. -/
def vsum (dim : ℕ) (vs : List (List ℝ)) : List ℝ :=
  (List.range dim).map (fun d => (vs.map (fun v => v.getD d 0)).sum)

/-- One routing iteration's output capsules (spec section 4.3 steps 2.1-2.3):
`v[j] = squash (Σ_i c[i,j] · u_hat[i,j])`. -/
noncomputable def capsOut (nIn nOut dimOut : ℕ) (uh : ℕ → ℕ → List ℝ)
    (b : ℕ → ℕ → ℝ) : List (List ℝ) :=
  (List.range nOut).map (fun j =>
    squash (vsum dimOut ((List.range nIn).map (fun i =>
      (uh i j).map (fun xv => coupling nOut b i j * xv)))))

/-- Agreement update of the routing logits (spec section 4.3 step 2.4):
`b[i,j] += u_hat[i,j] · v[j]`. -/
noncomputable def bUpdate (nIn nOut dimOut : ℕ) (uh : ℕ → ℕ → List ℝ)
    (b : ℕ → ℕ → ℝ) : ℕ → ℕ → ℝ :=
  fun i j => b i j + dotL (uh i j) ((capsOut nIn nOut dimOut uh b).getD j [])

/-- The routing loop (spec section 4.3 step 2): exactly `routings` iterations;
the agreement update is skipped on the final iteration. -/
noncomputable def routingLoop (nIn nOut dimOut : ℕ) (uh : ℕ → ℕ → List ℝ) :
    ℕ → (ℕ → ℕ → ℝ) → List (List ℝ)
  | 0, _b => []
  | 1, b => capsOut nIn nOut dimOut uh b
  | n + 2, b => routingLoop nIn nOut dimOut uh (n + 1) (bUpdate nIn nOut dimOut uh b)

/-- Modelled from the spec (section 4.3 Dynamic Routing Layer;
`capsulelayers.py` is absent from `src/`): prediction vectors, zero-initial
logits, then the routing loop. -/
noncomputable def capsuleForward (W : ℕ → ℕ → ℕ → ℕ → ℝ)
    (nOut dimOut routings : ℕ) (u : List (List ℝ)) : List (List ℝ) :=
  routingLoop u.length nOut dimOut (uhatF W dimOut u) routings (fun _ _ => 0)

/-- Modelled from the spec (section 4.4 Length; `capsulelayers.py` is absent
from `src/`): the Euclidean norm of each capsule vector. -/
noncomputable def lengthF (caps : List (List ℝ)) : List ℝ :=
  caps.map (fun v => Real.sqrt (sumSq v))

/-- Modelled from the spec (section 4.5 Mask, labelled case;
`capsulelayers.py` is absent from `src/`): each capsule is multiplied by its
label entry, then everything is flattened. -/
def maskLabel (caps : List (List ℝ)) (y : List ℝ) : List ℝ :=
  (List.zipWith (fun v yi => v.map (fun xv => yi * xv)) caps y).flatten

/-- Index of a maximal entry of a list (first such index). -/
noncomputable def idxMax (l : List ℝ) : ℕ :=
  l.enum.foldl (fun best p => if l.getD best 0 < p.2 then p.1 else best) 0

/-- One-hot vector of length `n` with the 1 at index `k`. -/
def oneHot (n k : ℕ) : List ℝ :=
  (List.range n).map (fun i => if i = k then (1 : ℝ) else 0)

/-- Modelled from the spec (section 4.5 Mask, unlabelled case;
`capsulelayers.py` is absent from `src/`): an implicit one-hot mask at the
index of the maximum-length capsule, then the same multiply-and-flatten. -/
noncomputable def maskNoLabel (caps : List (List ℝ)) : List ℝ :=
  maskLabel caps (oneHot caps.length (idxMax (lengthF caps)))

/-! ### The decoder and model assembly (`capsulenet.py` lines 15-49) -/

/-- Decoder dense-layer parameters: three weight matrices and biases, kept as
index functions (`w i j` maps input coordinate `i` to unit `j`). -/
structure DecParams where
  w1 : ℕ → ℕ → ℝ
  b1 : ℕ → ℝ
  w2 : ℕ → ℕ → ℝ
  b2 : ℕ → ℝ
  w3 : ℕ → ℕ → ℝ
  b3 : ℕ → ℝ

/-- All learned parameters of the network, created once at build time. -/
structure CapsParams where
  conv1w : ℕ → ℕ → ℕ → ℕ → ℝ
  conv1b : ℕ → ℝ
  pcw : ℕ → ℕ → ℕ → ℕ → ℝ
  pcb : ℕ → ℝ
  W : ℕ → ℕ → ℕ → ℕ → ℝ
  dec : DecParams

/-- All-zero parameters (a concrete parameter record for witnesses). -/
def zeroParams : CapsParams :=
  ⟨fun _ _ _ _ => 0, fun _ => 0, fun _ _ _ _ => 0, fun _ => 0,
   fun _ _ _ _ => 0, ⟨fun _ _ => 0, fun _ => 0, fun _ _ => 0, fun _ => 0,
   fun _ _ => 0, fun _ => 0⟩⟩

/-- A fully connected layer with `units` outputs:
`out[j] = act (b j + Σ_i v[i] * w i j)`. -/
noncomputable def denseF (units : ℕ) (w : ℕ → ℕ → ℝ) (b : ℕ → ℝ)
    (act : ℝ → ℝ) (v : List ℝ) : List ℝ :=
  (List.range units).map (fun j => act (b j + dotFun v (fun i => w i j)))

/-- Reshape a flat vector into a rank-3 tensor of shape `[h, w, c]`. -/
def reshape3 (h w c : ℕ) (flat : List ℝ) : Tensor3 :=
  (List.range h).map (fun i =>
    (List.range w).map (fun j =>
      (List.range c).map (fun k => flat.getD ((i * w + j) * c + k) 0)))

/-- The decoder of `capsulenet.py` lines 33-37: dense 512 relu, dense 1024
relu, dense `prod input_shape` sigmoid, reshape to `input_shape`. -/
noncomputable def decoderForward (input_shape : List ℕ) (P : DecParams)
    (v : List ℝ) : Tensor3 :=
  reshape3 (input_shape.getD 0 0) (input_shape.getD 1 0) (input_shape.getD 2 0)
    (denseF input_shape.prod P.w3 P.b3 sigmoidF
      (denseF 1024 P.w2 P.b2 reluF
        (denseF 512 P.w1 P.b1 reluF v)))

/-- A layer of the decoder `Sequential`, structurally. -/
inductive LayerSpec where
  | dense (units : ℕ) (act : Bool)
  | reshape (target : List ℕ)

/-- `Sequential.add`. -/
def addLayer (m : List LayerSpec) (l : LayerSpec) : List LayerSpec := m ++ [l]

/-- The decoder `Sequential` of `capsulenet.py` lines 33-37, one `add` call
at a time (`act = true` is relu, `act = false` is sigmoid). -/
def decoderSeq (input_shape : List ℕ) (n_class batch_size : ℕ) : List LayerSpec :=
  addLayer (addLayer (addLayer (addLayer []
    (.dense 512 true))
    (.dense 1024 true))
    (.dense input_shape.prod false))
    (.reshape input_shape)

/-- Activation semantics for `LayerSpec.dense`. -/
noncomputable def actF (b : Bool) : ℝ → ℝ := if b then reluF else sigmoidF

/-- A running value inside the decoder `Sequential`: a flat vector or an
already reshaped tensor. -/
inductive TVal where
  | vec (v : List ℝ)
  | ten (t : Tensor3)

/-- Run a `Sequential`, consuming one `(weights, bias)` pair per dense layer. -/
noncomputable def runSeq (ls : List LayerSpec)
    (dp : List ((ℕ → ℕ → ℝ) × (ℕ → ℝ))) (x : TVal) : TVal :=
  match ls with
  | [] => x
  | .dense u a :: rest =>
    match x with
    | .vec v =>
      runSeq rest dp.tail
        (.vec (denseF u (dp.headD (fun _ _ => 0, fun _ => 0)).1
          (dp.headD (fun _ _ => 0, fun _ => 0)).2 (actF a) v))
    | .ten t => runSeq rest dp.tail (.ten t)
  | .reshape sh :: rest =>
    match x with
    | .vec v =>
      runSeq rest dp (.ten (reshape3 (sh.getD 0 0) (sh.getD 1 0) (sh.getD 2 0) v))
    | .ten t => runSeq rest dp (.ten t)

/-- `digitcaps` of `capsulenet.py` lines 19-23: conv1, primary capsules, then
the routing layer with `n_class` 16-dimensional output capsules. -/
noncomputable def digitcapsF (n_class routings : ℕ) (P : CapsParams)
    (xi : Tensor3) : List (List ℝ) :=
  let conv1 := conv2d P.conv1w P.conv1b 9 1 256 reluF xi
  let pc := primaryCap P.pcw P.pcb 8 32 9 2 conv1
  capsuleForward P.W n_class 16 routings pc

/-- Elementwise sum of two rank-2 tensors (`layers.Add`). -/
def tAdd2 (a b : List (List ℝ)) : List (List ℝ) :=
  List.zipWith (fun ra rb => List.zipWith (· + ·) ra rb) a b

/-- The train graph (`capsulenet.py` line 40): `(image, label)` batches to
`(out_caps, reconstruction from the label-masked capsule)`. -/
noncomputable def trainForward (input_shape : List ℕ) (n_class routings : ℕ)
    (P : CapsParams) (xs : List Tensor3) (ys : List (List ℝ)) :
    List (List ℝ) × List Tensor3 :=
  (xs.map (fun xi => lengthF (digitcapsF n_class routings P xi)),
   List.zipWith (fun xi yi =>
     decoderForward input_shape P.dec (maskLabel (digitcapsF n_class routings P xi) yi)) xs ys)

/-- The eval graph (`capsulenet.py` line 41): image batch to
`(out_caps, reconstruction from the max-length-masked capsule)`. -/
noncomputable def evalForward (input_shape : List ℕ) (n_class routings : ℕ)
    (P : CapsParams) (xs : List Tensor3) : List (List ℝ) × List Tensor3 :=
  (xs.map (fun xi => lengthF (digitcapsF n_class routings P xi)),
   xs.map (fun xi =>
     decoderForward input_shape P.dec (maskNoLabel (digitcapsF n_class routings P xi))))

/-- `zipWith` over three lists. -/
def zipWith3 (f : α → β → γ → δ) (as : List α) (bs : List β) (cs : List γ) : List δ :=
  List.zipWith (fun a p => f a p.1 p.2) as (bs.zip cs)

/-- The manipulate graph (`capsulenet.py` lines 44-47): the noise is added to
`digitcaps`, the sum is label-masked, and the shared decoder reconstructs. -/
noncomputable def manipForward (input_shape : List ℕ) (n_class routings : ℕ)
    (P : CapsParams) (xs : List Tensor3) (ys : List (List ℝ))
    (ns : List (List (List ℝ))) : List Tensor3 :=
  zipWith3 (fun xi yi ni =>
    decoderForward input_shape P.dec
      (maskLabel (tAdd2 (digitcapsF n_class routings P xi) ni) yi)) xs ys ns

/-- The three computation graphs returned by `CapsNet`, as functions of the
single shared parameter record. -/
structure Models where
  train : CapsParams → List Tensor3 → List (List ℝ) → List (List ℝ) × List Tensor3
  eval : CapsParams → List Tensor3 → List (List ℝ) × List Tensor3
  manip : CapsParams → List Tensor3 → List (List ℝ) → List (List (List ℝ)) → List Tensor3

/-- Assemble the three graphs (`batch_size` only fixes the static batch
dimension of the Keras `Input` nodes and does not enter the semantics). -/
noncomputable def mkModels (input_shape : List ℕ) (n_class routings batch_size : ℕ) :
    Models :=
  ⟨trainForward input_shape n_class routings,
   evalForward input_shape n_class routings,
   manipForward input_shape n_class routings⟩

/-- Capsule-layer configuration record. -/
structure CapsuleLayerCfg where
  num_capsule : ℕ
  dim_capsule : ℕ
  routingsN : ℕ

/-- Modelled from the spec (section 4.3 failure semantics and section 7;
`capsulelayers.py` is absent from `src/`): constructing a `CapsuleLayer`
with `routings < 1` is a configuration error, rejected at construction
time with a descriptive message. -/
def mkCapsuleLayer (num_capsule dim_capsule : ℕ) (routings : ℤ) :
    Except String CapsuleLayerCfg :=
  if routings < 1 then
    Except.error ("CapsuleLayer digitcaps: the routings should be > 0.")
  else
    Except.ok ⟨num_capsule, dim_capsule, routings.toNat⟩

/-- `CapsNet` of `capsulenet.py` lines 15-49: graph construction instantiates
the `CapsuleLayer` (which validates `routings`) and returns the three
graphs over the shared parameters. -/
noncomputable def CapsNet (input_shape : List ℕ) (n_class : ℕ) (routings : ℤ)
    (batch_size : ℕ) : Except String Models :=
  (mkCapsuleLayer n_class 16 routings).map (fun cl =>
    mkModels input_shape n_class cl.routingsN batch_size)

/-- Shape predicate for an image batch `[n, h, w, c]`. -/
def BatchShape (xs : List Tensor3) (n h w c : ℕ) : Prop :=
  xs.length = n ∧ ∀ t ∈ xs, t.length = h ∧ ∀ r ∈ t, r.length = w ∧ ∀ q ∈ r, q.length = c

/-- An all-zero `28 × 28 × 1` image. -/
def zeroImg : Tensor3 :=
  List.replicate 28 (List.replicate 28 [(0 : ℝ)])

/-- The all-zero `n_class × 16` noise tensor of the manipulate graph. -/
def zeroNoise (n_class : ℕ) : List (List ℝ) :=
  List.replicate n_class (List.replicate 16 (0 : ℝ))

/-! ### Name resolution in `manipulate_latent` (`capsulenet.py` lines 66-96).

The function body is transcribed statement by statement: for each statement,
the global/builtin/local names it reads, the local names it binds, and
whether it calls `model.predict` (the reconstruction).  External library
calls are assumed to return; the model tracks only Python name resolution,
which fails with `NameError` at the first name bound nowhere. -/

/-- One Python statement: source line, names read, names bound, and whether
it calls `model.predict`. -/
structure PyStmt where
  line : ℕ
  uses : List String
  binds : List String
  callsPredict : Bool

/-- Outcome of running a statement sequence: normal completion or a
`NameError`, in both cases with the number of `model.predict` calls made. -/
inductive PyOutcome where
  | done (predicts : ℕ)
  | nameError (nm : String) (predicts : ℕ)
deriving DecidableEq

/-- A name resolves when it is bound in the environment. -/
def pyResolves (env : List String) (nm : String) : Bool := env.contains nm

/-- Run statements in order; stop with `NameError` at the first name that
does not resolve, otherwise extend the environment with the bound names. -/
def runStmts (env : List String) (predicts : ℕ) : List PyStmt → PyOutcome
  | [] => .done predicts
  | s :: rest =>
    match s.uses.find? (fun nm => !(pyResolves env nm)) with
    | some nm => .nameError nm predicts
    | none =>
      runStmts (env ++ s.binds) (predicts + (if s.callsPredict then 1 else 0)) rest

/-- Python builtins used by `manipulate_latent`. -/
def builtinNames : List String := ["print", "str", "sum", "len", "range"]

/-- Names bound at the top level of `capsulenet.py` (lines 1-63): imports
and module-level defs. -/
def moduleTopNames : List String :=
  ["np", "Image", "tf", "plt", "K", "layers", "models", "optimizers",
   "combine_images", "CapsuleLayer", "PrimaryCap", "Length", "Mask",
   "CapsNet", "margin_loss", "manipulate_latent"]

/-- Names bound inside the `__main__` block (lines 99-154) before the
(commented-out) call site of `manipulate_latent`. -/
def mainBlockNames : List String :=
  ["os", "time", "glob2", "cv2", "argparse", "ImageDataGenerator",
   "callbacks", "load_dataset", "split_dataset", "parser", "args",
   "X", "y", "x_train", "y_train", "x_test", "y_test",
   "model", "eval_model", "manipulate_model"]

/-- The parameters of `manipulate_latent` (line 66), bound on entry. -/
def latentParams : List String := ["model", "data", "n_class", "args"]

/-- The body of `manipulate_latent`, lines 68-96, statement by statement
(the doubly nested loop body of lines 83-88 appears once; execution never
reaches it). -/
def latentBody : List PyStmt :=
  [⟨68, ["print", "str"], [], false⟩,
   ⟨70, ["data"], ["x_test", "y_test"], false⟩,
   ⟨72, ["np", "y_test", "args"], ["index"], false⟩,
   ⟨74, ["np", "sum", "index"], ["number"], false⟩,
   ⟨76, ["np", "len", "y_test", "index", "BATCH_SIZE"], ["selected_indices"], false⟩,
   ⟨77, ["print", "selected_indices"], [], false⟩,
   ⟨79, ["x_test", "y_test", "index", "selected_indices"], ["x", "y"], false⟩,
   ⟨81, ["np", "BATCH_SIZE", "n_class"], ["noise"], false⟩,
   ⟨82, [], ["x_recons"], false⟩,
   ⟨83, ["range"], ["dim"], false⟩,
   ⟨84, [], ["r"], false⟩,
   ⟨85, ["np", "noise"], ["tmp"], false⟩,
   ⟨86, ["tmp", "r", "dim"], [], false⟩,
   ⟨87, ["model", "x", "y", "tmp"], ["x_recon"], true⟩,
   ⟨88, ["x_recons", "x_recon"], [], false⟩,
   ⟨90, ["np", "x_recons"], ["x_recons"], false⟩,
   ⟨92, ["combine_images", "x_recons"], ["img"], false⟩,
   ⟨93, ["img"], ["image"], false⟩,
   ⟨94, ["Image", "image", "np", "args"], [], false⟩,
   ⟨95, ["print", "str", "args"], [], false⟩,
   ⟨96, ["print", "str"], [], false⟩]

/-- The full environment visible to a call of `manipulate_latent`:
parameters, then every module-level name, then builtins. -/
def latentEnv : List String :=
  latentParams ++ moduleTopNames ++ mainBlockNames ++ builtinNames

/-! ### Lemmas and theorems -/

theorem mem_zipWith_cases {α β γ : Type _} {f : α → β → γ} {l₁ : List α}
    {l₂ : List β} {c : γ} (h : c ∈ List.zipWith f l₁ l₂) :
    ∃ a ∈ l₁, ∃ b ∈ l₂, c = f a b := by
  induction l₁ generalizing l₂ with
  | nil => simp at h
  | cons x xs ih =>
    cases l₂ with
    | nil => simp at h
    | cons y ys =>
      rcases (List.mem_cons).1 h with h1 | h2
      · exact ⟨x, by simp, y, by simp, h1⟩
      · rcases ih h2 with ⟨a, ha, b, hb, rfl⟩
        exact ⟨a, List.mem_cons_of_mem _ ha, b, List.mem_cons_of_mem _ hb, rfl⟩

theorem row_fuse (yr pr : List ℚ) :
    List.zipWith (· + ·)
      (List.zipWith (· * ·) yr
        (((pr.map (fun p => 9/10 - p)).map (fun xv => max 0 xv)).map (fun xv => xv * xv)))
      (List.zipWith (· * ·) ((yr.map (fun yv => 1 - yv)).map (fun xv => 1/2 * xv))
        (((pr.map (fun p => p - 1/10)).map (fun xv => max 0 xv)).map (fun xv => xv * xv))) =
      List.zipWith marginTerm yr pr := by
  induction yr generalizing pr with
  | nil => simp
  | cons y ys ih =>
    cases pr with
    | nil => simp
    | cons p ps =>
      simp only [List.map_cons, List.zipWith_cons_cons]
      exact congrArg₂ List.cons (by simp [marginTerm]) (ih ps)

theorem L_fuse (y p : List (List ℚ)) :
    tzip (· + ·)
      (tzip (· * ·) y
        (tmap (fun xv => xv * xv) (tmap (fun xv => max 0 xv) (tmap (fun q => 9/10 - q) p))))
      (tzip (· * ·) (tmap (fun xv => 1/2 * xv) (tmap (fun yv => 1 - yv) y))
        (tmap (fun xv => xv * xv) (tmap (fun xv => max 0 xv) (tmap (fun q => q - 1/10) p)))) =
      List.zipWith (fun yr pr => List.zipWith marginTerm yr pr) y p := by
  induction y generalizing p with
  | nil => simp [tzip, tmap]
  | cons yr ys ih =>
    cases p with
    | nil => simp [tzip, tmap]
    | cons pr ps =>
      simp only [tzip, tmap, List.map_cons, List.zipWith_cons_cons]
      exact congrArg₂ List.cons (row_fuse yr pr) (ih ps)

theorem margin_loss_eq_rows (y p : List (List ℚ)) :
    margin_loss y p = (specRows y p).sum / ((specRows y p).length : ℚ) := by
  show reduce_mean (reduce_sum1 (tzip (· + ·) _ _)) = _
  rw [L_fuse]
  unfold reduce_mean reduce_sum1 specRows
  rw [List.map_zipWith]

theorem margin_loss_eq_spec (y p : List (List ℚ))
    (h : y.map List.length = p.map List.length) :
    margin_loss y p = margin_loss_spec y p := by
  have hlen : y.length = p.length := by
    simpa using congrArg List.length h
  rw [margin_loss_eq_rows]
  unfold margin_loss_spec
  rw [specRows, List.length_zipWith, hlen, min_self]

/-- C1: for label and prediction tensors of the same shape `[batch, n_class]`,
`margin_loss` equals the batch mean of the per-example class sums of
`y·max(0, 0.9 − p)² + 0.5·(1−y)·max(0, p − 0.1)²`: the sum over classes is
taken first, then the average over the batch. -/
theorem C1_margin_loss_is_batch_mean_of_class_sums (y_true y_pred : List (List ℚ))
    (h : y_true.map List.length = y_pred.map List.length) :
    margin_loss y_true y_pred = margin_loss_spec y_true y_pred :=
  margin_loss_eq_spec y_true y_pred h

theorem C1_witness :
    [[(1 : ℚ), 0], [0, 1]].map List.length = [[(3 : ℚ)/4, 1/5], [0, 1/2]].map List.length ∧
      margin_loss [[(1 : ℚ), 0], [0, 1]] [[(3 : ℚ)/4, 1/5], [0, 1/2]] =
        margin_loss_spec [[(1 : ℚ), 0], [0, 1]] [[(3 : ℚ)/4, 1/5], [0, 1/2]] :=
  ⟨by decide, C1_margin_loss_is_batch_mean_of_class_sums _ _ (by decide)⟩

theorem marginTerm_self_zero (v : ℚ) (hv : v = 0 ∨ v = 1) : marginTerm v v = 0 := by
  rcases hv with rfl | rfl <;> norm_num [marginTerm, max_def]

/-- C7: for one-hot `y_true`, if `y_pred` assigns length 1 to the true class
and length 0 to every other class (that is, `y_pred = y_true`), the margin
loss is 0. -/
theorem C7_margin_loss_zero_at_perfect_prediction (y_true y_pred : List (List ℚ))
    (h1 : ∀ row ∈ y_true, (∀ v ∈ row, v = 0 ∨ v = 1) ∧ row.count 1 = 1)
    (h2 : y_pred = y_true) :
    margin_loss y_true y_pred = 0 := by
  rw [h2, margin_loss_eq_rows]
  have hz : (specRows y_true y_true).sum = 0 := by
    apply List.sum_eq_zero
    intro x hx
    rw [specRows, List.zipWith_same] at hx
    rcases List.mem_map.1 hx with ⟨row, hrow, rfl⟩
    apply List.sum_eq_zero
    intro t ht
    rw [List.zipWith_same] at ht
    rcases List.mem_map.1 ht with ⟨v, hv, rfl⟩
    exact marginTerm_self_zero v ((h1 row hrow).1 v hv)
  rw [hz, zero_div]

theorem C7_witness :
    (∀ row ∈ [[(1 : ℚ), 0]], (∀ v ∈ row, v = 0 ∨ v = 1) ∧ row.count 1 = 1) ∧
      margin_loss [[(1 : ℚ), 0]] [[(1 : ℚ), 0]] = 0 :=
  ⟨by decide, C7_margin_loss_zero_at_perfect_prediction _ _ (by decide) rfl⟩

/-- C10: for `y_true` with all entries in `[0, 1]` and any `y_pred`, the
margin loss is non-negative (each term is a non-negative weight times a
square; over exact arithmetic it is a finite rational). -/
theorem C10_margin_loss_nonneg (y_true y_pred : List (List ℚ))
    (h : ∀ row ∈ y_true, ∀ v ∈ row, 0 ≤ v ∧ v ≤ 1) :
    0 ≤ margin_loss y_true y_pred := by
  unfold margin_loss reduce_mean reduce_sum1
  apply div_nonneg _ (Nat.cast_nonneg _)
  apply List.sum_nonneg
  intro x hx
  rcases List.mem_map.1 hx with ⟨r, hr, rfl⟩
  apply List.sum_nonneg
  intro t ht
  rw [tzip] at hr
  rcases mem_zipWith_cases hr with ⟨ra, hra, rb, hrb, rfl⟩
  rcases mem_zipWith_cases ht with ⟨a, ha, b, hb, rfl⟩
  have hA : 0 ≤ a := by
    rw [tzip] at hra
    rcases mem_zipWith_cases hra with ⟨yr, hyr, mr, hmr, rfl⟩
    rcases mem_zipWith_cases ha with ⟨yv, hyv, mv, hmv, rfl⟩
    rw [tmap] at hmr
    rcases List.mem_map.1 hmr with ⟨nr, _hnr, rfl⟩
    rcases List.mem_map.1 hmv with ⟨nv, _hnv, rfl⟩
    exact mul_nonneg (h yr hyr yv hyv).1 (mul_self_nonneg nv)
  have hB : 0 ≤ b := by
    rw [tzip] at hrb
    rcases mem_zipWith_cases hrb with ⟨wr, hwr, m2r, hm2r, rfl⟩
    rcases mem_zipWith_cases hb with ⟨wv, hwv, m2v, hm2v, rfl⟩
    rw [tmap] at hwr
    rcases List.mem_map.1 hwr with ⟨ur, hur, rfl⟩
    rw [tmap] at hur
    rcases List.mem_map.1 hur with ⟨yr2, hyr2, rfl⟩
    rcases List.mem_map.1 hwv with ⟨uv, huv, rfl⟩
    rcases List.mem_map.1 huv with ⟨y2v, hy2v, rfl⟩
    rw [tmap] at hm2r
    rcases List.mem_map.1 hm2r with ⟨n2r, _hn2r, rfl⟩
    rcases List.mem_map.1 hm2v with ⟨n2v, _hn2v, rfl⟩
    have hy2 : y2v ≤ 1 := (h yr2 hyr2 y2v hy2v).2
    have hw : (0 : ℚ) ≤ 1/2 * (1 - y2v) := by linarith
    exact mul_nonneg hw (mul_self_nonneg n2v)
  exact add_nonneg hA hB

theorem C10_witness :
    (∀ row ∈ [[(1 : ℚ), 0]], ∀ v ∈ row, 0 ≤ v ∧ v ≤ 1) ∧
      0 ≤ margin_loss [[(1 : ℚ), 0]] [[(7 : ℚ), -5]] :=
  ⟨by decide, C10_margin_loss_nonneg _ _ (by decide)⟩

theorem marginTerm_one_antitone (v p : ℚ) (h : v ≤ p) :
    marginTerm 1 p ≤ marginTerm 1 v := by
  have h1 : max 0 (9/10 - p) ≤ max 0 (9/10 - v) := max_le_max le_rfl (by linarith)
  have h2 : (0 : ℚ) ≤ max 0 (9/10 - p) := le_max_left _ _
  have h3 := mul_self_le_mul_self h2 h1
  unfold marginTerm
  simp only [sub_self, mul_zero, zero_mul, add_zero, one_mul]
  linarith

theorem marginTerm_zero_monotone (p v : ℚ) (h : p ≤ v) :
    marginTerm 0 p ≤ marginTerm 0 v := by
  have h1 : max 0 (p - 1/10) ≤ max 0 (v - 1/10) := max_le_max le_rfl (by linarith)
  have h2 : (0 : ℚ) ≤ max 0 (p - 1/10) := le_max_left _ _
  have h3 := mul_self_le_mul_self h2 h1
  unfold marginTerm
  simp only [zero_mul, zero_add, sub_zero, mul_one]
  linarith

theorem row_sum_set_le (yr pr : List ℚ) (j : ℕ) (v : ℚ)
    (hterm : marginTerm (yr.getD j 0) (pr.getD j 0) ≤ marginTerm (yr.getD j 0) v) :
    (List.zipWith marginTerm yr pr).sum ≤ (List.zipWith marginTerm yr (pr.set j v)).sum := by
  induction yr generalizing pr j with
  | nil => simp
  | cons y0 ys ih =>
    cases pr with
    | nil => simp
    | cons p0 ps =>
      cases j with
      | zero =>
        simp only [List.set_cons_zero, List.zipWith_cons_cons, List.sum_cons]
        exact add_le_add_right (by simpa using hterm) _
      | succ n =>
        simp only [List.set_cons_succ, List.zipWith_cons_cons, List.sum_cons]
        exact add_le_add_left (ih ps n (by simpa using hterm)) _

theorem rows_sum_update_le (y p : List (List ℚ)) (i j : ℕ) (v : ℚ)
    (hterm : marginTerm ((y.getD i []).getD j 0) ((p.getD i []).getD j 0) ≤
      marginTerm ((y.getD i []).getD j 0) v) :
    (specRows y p).sum ≤ (specRows y (updateAt p i j v)).sum := by
  induction y generalizing p i with
  | nil => simp [specRows]
  | cons yr ys ih =>
    cases p with
    | nil => simp [specRows, updateAt]
    | cons pr ps =>
      cases i with
      | zero =>
        show (specRows (yr :: ys) (pr :: ps)).sum ≤
          (specRows (yr :: ys) (pr.set j v :: ps)).sum
        simp only [specRows, List.zipWith_cons_cons, List.sum_cons]
        exact add_le_add_right (row_sum_set_le yr pr j v (by simpa using hterm)) _
      | succ n =>
        show (specRows (yr :: ys) (pr :: ps)).sum ≤
          (specRows (yr :: ys) (pr :: updateAt ps n j v)).sum
        simp only [specRows, List.zipWith_cons_cons, List.sum_cons]
        exact add_le_add_left (ih ps n (by simpa using hterm)) _

theorem margin_loss_update_le (y p : List (List ℚ)) (i j : ℕ) (v : ℚ)
    (hterm : marginTerm ((y.getD i []).getD j 0) ((p.getD i []).getD j 0) ≤
      marginTerm ((y.getD i []).getD j 0) v) :
    margin_loss y p ≤ margin_loss y (updateAt p i j v) := by
  rw [margin_loss_eq_rows, margin_loss_eq_rows]
  have hlen : (specRows y (updateAt p i j v)).length = (specRows y p).length := by
    simp [specRows, List.length_zipWith, updateAt, List.length_set]
  rw [hlen, div_eq_mul_inv, div_eq_mul_inv]
  exact mul_le_mul_of_nonneg_right (rows_sum_update_le y p i j v hterm)
    (inv_nonneg.2 (Nat.cast_nonneg _))

/-- C8: the margin loss is monotonically non-decreasing as the true-class
predicted length decreases below 0.9 (first conjunct) and as a false-class
predicted length increases above 0.1 (second conjunct), all other entries of
`y_pred` held fixed. -/
theorem C8_margin_loss_monotone (y_true y_pred : List (List ℚ)) (i j : ℕ) (v : ℚ) :
    (((y_true.getD i []).getD j 0 = 1 → v ≤ (y_pred.getD i []).getD j 0 →
        (y_pred.getD i []).getD j 0 ≤ 9/10 →
        margin_loss y_true y_pred ≤ margin_loss y_true (updateAt y_pred i j v)) ∧
      ((y_true.getD i []).getD j 0 = 0 → (y_pred.getD i []).getD j 0 ≤ v →
        1/10 ≤ (y_pred.getD i []).getD j 0 →
        margin_loss y_true y_pred ≤ margin_loss y_true (updateAt y_pred i j v))) := by
  constructor
  · intro h1 h2 _h3
    apply margin_loss_update_le
    rw [h1]
    exact marginTerm_one_antitone v _ h2
  · intro h1 h2 _h3
    apply margin_loss_update_le
    rw [h1]
    exact marginTerm_zero_monotone _ v h2

theorem C8_witness :
    (margin_loss [[(1 : ℚ), 0]] [[(1 : ℚ)/2, 0]] ≤
      margin_loss [[(1 : ℚ), 0]] (updateAt [[(1 : ℚ)/2, 0]] 0 0 (1/4))) ∧
    (margin_loss [[(1 : ℚ), 0]] [[(1 : ℚ)/2, 1/5]] ≤
      margin_loss [[(1 : ℚ), 0]] (updateAt [[(1 : ℚ)/2, 1/5]] 0 1 (1/2))) :=
  ⟨(C8_margin_loss_monotone [[(1 : ℚ), 0]] [[(1 : ℚ)/2, 0]] 0 0 (1/4)).1
      (by norm_num) (by norm_num) (by norm_num),
   (C8_margin_loss_monotone [[(1 : ℚ), 0]] [[(1 : ℚ)/2, 1/5]] 0 1 (1/2)).2
      (by norm_num) (by norm_num) (by norm_num)⟩

/-- C9: running the body of `manipulate_latent` stops with a `NameError` on
`BATCH_SIZE` at line 76, with zero `model.predict` calls made (so before any
reconstruction is produced); `BATCH_SIZE` is bound neither by the parameters
nor anywhere at module level. -/
theorem C9_manipulate_latent_name_error :
    runStmts latentEnv 0 latentBody = PyOutcome.nameError "BATCH_SIZE" 0 ∧
      "BATCH_SIZE" ∉ latentEnv := by
  constructor
  · rfl
  · decide

/-- C2: constructing the model with `routings < 1` is rejected at graph
construction time with a configuration error naming the offending layer; no
forward functions are produced, so nothing is deferred to forward-call time. -/
theorem C2_routings_rejected_at_construction (input_shape : List ℕ) (n_class : ℕ)
    (routings : ℤ) (batch_size : ℕ) (h : routings < 1) :
    CapsNet input_shape n_class routings batch_size =
      Except.error ("CapsuleLayer digitcaps: the routings should be > 0.") := by
  unfold CapsNet mkCapsuleLayer
  rw [if_pos h]
  rfl

theorem C2_witness :
    ((0 : ℤ) < 1) ∧
      CapsNet [28, 28, 1] 10 0 16 =
        Except.error ("CapsuleLayer digitcaps: the routings should be > 0.") :=
  ⟨by norm_num, C2_routings_rejected_at_construction [28, 28, 1] 10 0 16 (by norm_num)⟩

theorem eps_pos : (0 : ℝ) < eps := by
  unfold eps
  norm_num

theorem sumSq_nonneg (v : List ℝ) : 0 ≤ sumSq v := by
  apply List.sum_nonneg
  intro x hx
  rcases List.mem_map.1 hx with ⟨a, _, rfl⟩
  exact mul_self_nonneg a

theorem sumSq_map_mul (k : ℝ) (v : List ℝ) :
    sumSq (v.map (fun xv => k * xv)) = k * k * sumSq v := by
  unfold sumSq
  rw [List.map_map]
  induction v with
  | nil => simp
  | cons a as ih =>
    simp only [List.map_cons, List.sum_cons, Function.comp_apply] at *
    rw [ih]
    ring

theorem norm_squash_bounds (v : List ℝ) :
    0 ≤ Real.sqrt (sumSq (squash v)) ∧ Real.sqrt (sumSq (squash v)) < 1 := by
  refine ⟨Real.sqrt_nonneg _, ?_⟩
  have hs0 : 0 ≤ sumSq v := sumSq_nonneg v
  have he : (0 : ℝ) < eps := eps_pos
  have hse : 0 < sumSq v + eps := by linarith
  have hr : 0 < Real.sqrt (sumSq v + eps) := Real.sqrt_pos.2 hse
  have hmap : squash v = v.map (fun xv =>
      (sumSq v / (1 + sumSq v) / Real.sqrt (sumSq v + eps)) * xv) := by
    unfold squash
    apply List.map_congr_left
    intro x _
    ring
  have hk : 0 ≤ sumSq v / (1 + sumSq v) / Real.sqrt (sumSq v + eps) :=
    div_nonneg (div_nonneg hs0 (by linarith)) (le_of_lt hr)
  rw [hmap, sumSq_map_mul, Real.sqrt_mul (mul_self_nonneg _),
    Real.sqrt_mul_self hk]
  have h1 : sumSq v / (1 + sumSq v) < 1 := (div_lt_one (by linarith)).2 (by linarith)
  have h2 : Real.sqrt (sumSq v) / Real.sqrt (sumSq v + eps) ≤ 1 :=
    (div_le_one hr).2 (Real.sqrt_le_sqrt (by linarith))
  have h3 : 0 ≤ sumSq v / (1 + sumSq v) := div_nonneg hs0 (by linarith)
  have hrw : sumSq v / (1 + sumSq v) / Real.sqrt (sumSq v + eps) * Real.sqrt (sumSq v) =
      sumSq v / (1 + sumSq v) * (Real.sqrt (sumSq v) / Real.sqrt (sumSq v + eps)) := by
    ring
  rw [hrw]
  calc sumSq v / (1 + sumSq v) * (Real.sqrt (sumSq v) / Real.sqrt (sumSq v + eps)) ≤
      sumSq v / (1 + sumSq v) := mul_le_of_le_one_right h3 h2
    _ < 1 := h1

theorem routingLoop_shape (nIn nOut dimOut : ℕ) (uh : ℕ → ℕ → List ℝ) :
    ∀ n : ℕ, 1 ≤ n → ∀ b : ℕ → ℕ → ℝ,
      ∃ b2, routingLoop nIn nOut dimOut uh n b = capsOut nIn nOut dimOut uh b2 := by
  intro n
  induction n with
  | zero => intro h; exact absurd h (by omega)
  | succ m ih =>
    intro _ b
    cases m with
    | zero => exact ⟨b, rfl⟩
    | succ k =>
      simp only [routingLoop]
      exact ih (by omega) (bUpdate nIn nOut dimOut uh b)

theorem capsOut_length (nIn nOut dimOut : ℕ) (uh : ℕ → ℕ → List ℝ)
    (b : ℕ → ℕ → ℝ) : (capsOut nIn nOut dimOut uh b).length = nOut := by
  simp [capsOut]

theorem squash_length (v : List ℝ) : (squash v).length = v.length := by
  simp [squash]

theorem capsOut_rows (nIn nOut dimOut : ℕ) (uh : ℕ → ℕ → List ℝ)
    (b : ℕ → ℕ → ℝ) : ∀ r ∈ capsOut nIn nOut dimOut uh b, r.length = dimOut := by
  intro r hr
  unfold capsOut at hr
  rcases List.mem_map.1 hr with ⟨j, _, rfl⟩
  rw [squash_length]
  simp [vsum]

theorem digitcapsF_shape (n_class routings : ℕ) (h : 1 ≤ routings)
    (P : CapsParams) (xi : Tensor3) :
    (digitcapsF n_class routings P xi).length = n_class ∧
      ∀ r ∈ digitcapsF n_class routings P xi, r.length = 16 := by
  unfold digitcapsF capsuleForward
  obtain ⟨b2, hb⟩ := routingLoop_shape _ n_class 16 _ routings h (fun _ _ => 0)
  rw [hb]
  exact ⟨capsOut_length _ _ _ _ _, capsOut_rows _ _ _ _ _⟩

theorem lengthF_digitcaps_bounds (n_class routings : ℕ) (h : 1 ≤ routings)
    (P : CapsParams) (xi : Tensor3) :
    (lengthF (digitcapsF n_class routings P xi)).length = n_class ∧
      ∀ e ∈ lengthF (digitcapsF n_class routings P xi), 0 ≤ e ∧ e < 1 := by
  unfold digitcapsF capsuleForward
  obtain ⟨b2, hb⟩ := routingLoop_shape _ n_class 16 _ routings h (fun _ _ => 0)
  rw [hb]
  constructor
  · simp [lengthF, capsOut]
  · intro e he
    unfold lengthF at he
    rcases List.mem_map.1 he with ⟨v, hv, rfl⟩
    unfold capsOut at hv
    rcases List.mem_map.1 hv with ⟨j, _, rfl⟩
    exact norm_squash_bounds _

theorem reshape3_shape (h w c : ℕ) (flat : List ℝ) :
    (reshape3 h w c flat).length = h ∧
      ∀ r ∈ reshape3 h w c flat, r.length = w ∧ ∀ q ∈ r, q.length = c := by
  refine ⟨by simp [reshape3], ?_⟩
  intro r hr
  unfold reshape3 at hr
  rcases List.mem_map.1 hr with ⟨i, _, rfl⟩
  refine ⟨by simp, ?_⟩
  intro q hq
  rcases List.mem_map.1 hq with ⟨j, _, rfl⟩
  simp

theorem CapsNet_ok (input_shape : List ℕ) (n_class batch_size : ℕ)
    (routings : ℤ) (m : Models)
    (hm : CapsNet input_shape n_class routings batch_size = Except.ok m) :
    m = mkModels input_shape n_class routings.toNat batch_size := by
  unfold CapsNet mkCapsuleLayer at hm
  by_cases h : routings < 1
  · rw [if_pos h] at hm
    simp [Except.map] at hm
  · rw [if_neg h] at hm
    simpa [Except.map] using hm.symm

theorem evalForward_props (P : CapsParams) (xs : List Tensor3)
    (hx : BatchShape xs 16 28 28 1) :
    (evalForward [28, 28, 1] 10 3 P xs).1.length = 16 ∧
      (∀ row ∈ (evalForward [28, 28, 1] 10 3 P xs).1,
        row.length = 10 ∧ ∀ e ∈ row, 0 ≤ e ∧ e < 1) ∧
      BatchShape (evalForward [28, 28, 1] 10 3 P xs).2 16 28 28 1 := by
  unfold evalForward
  refine ⟨?_, ?_, ?_⟩
  · rw [List.length_map]
    exact hx.1
  · intro row hrow
    rcases List.mem_map.1 hrow with ⟨xi, _, rfl⟩
    exact ⟨(lengthF_digitcaps_bounds 10 3 (by norm_num) P xi).1,
           (lengthF_digitcaps_bounds 10 3 (by norm_num) P xi).2⟩
  · unfold BatchShape
    constructor
    · rw [List.length_map]
      exact hx.1
    · intro t ht
      rcases List.mem_map.1 ht with ⟨xi, _, rfl⟩
      unfold decoderForward
      exact ⟨(reshape3_shape _ _ _ _).1, (reshape3_shape _ _ _ _).2⟩

/-- C3: for input shape `[28, 28, 1]`, `n_class = 10`, `routings = 3`,
`batch_size = 16`, the eval graph maps any image batch of shape
`[16, 28, 28, 1]` to an `out_caps` of shape `[16, 10]` with all entries in
`[0, 1)`, and to a reconstruction of shape `[16, 28, 28, 1]`. -/
theorem C3_eval_shapes_and_range (m : Models)
    (hm : CapsNet [28, 28, 1] 10 3 16 = Except.ok m)
    (P : CapsParams) (xs : List Tensor3) (hx : BatchShape xs 16 28 28 1) :
    (m.eval P xs).1.length = 16 ∧
      (∀ row ∈ (m.eval P xs).1, row.length = 10 ∧ ∀ e ∈ row, 0 ≤ e ∧ e < 1) ∧
      BatchShape (m.eval P xs).2 16 28 28 1 := by
  have hmm := CapsNet_ok [28, 28, 1] 10 16 3 m hm
  subst hmm
  exact evalForward_props P xs hx

theorem zeroBatch_shape : BatchShape (List.replicate 16 zeroImg) 16 28 28 1 := by
  unfold BatchShape zeroImg
  refine ⟨by simp, ?_⟩
  intro t ht
  rw [List.eq_of_mem_replicate ht]
  refine ⟨by simp, ?_⟩
  intro r hr
  rw [List.eq_of_mem_replicate hr]
  refine ⟨by simp, ?_⟩
  intro q hq
  rw [List.eq_of_mem_replicate hq]
  rfl

theorem C3_witness :
    ((mkModels [28, 28, 1] 10 3 16).eval zeroParams (List.replicate 16 zeroImg)).1.length = 16 ∧
      (∀ row ∈ ((mkModels [28, 28, 1] 10 3 16).eval zeroParams (List.replicate 16 zeroImg)).1,
        row.length = 10 ∧ ∀ e ∈ row, 0 ≤ e ∧ e < 1) ∧
      BatchShape ((mkModels [28, 28, 1] 10 3 16).eval zeroParams
        (List.replicate 16 zeroImg)).2 16 28 28 1 :=
  C3_eval_shapes_and_range (mkModels [28, 28, 1] 10 3 16) rfl zeroParams
    (List.replicate 16 zeroImg) zeroBatch_shape

/-- C4: the three graphs returned by `CapsNet` share their learned
parameters: every reconstruction output of the train, eval and manipulate
graphs is the single shared `decoderForward` applied with the same decoder
parameter component `P.dec` of the one parameter record `P`, so an update of
`P` is visible through all three graphs. -/
theorem C4_shared_decoder_parameters (input_shape : List ℕ)
    (n_class batch_size : ℕ) (routings : ℤ) (m : Models)
    (hm : CapsNet input_shape n_class routings batch_size = Except.ok m)
    (P : CapsParams) (xs : List Tensor3) (ys : List (List ℝ))
    (ns : List (List (List ℝ))) :
    ((m.train P xs ys).2 = List.zipWith (fun xi yi => decoderForward input_shape P.dec
        (maskLabel (digitcapsF n_class routings.toNat P xi) yi)) xs ys) ∧
      ((m.eval P xs).2 = xs.map (fun xi => decoderForward input_shape P.dec
        (maskNoLabel (digitcapsF n_class routings.toNat P xi)))) ∧
      (m.manip P xs ys ns = zipWith3 (fun xi yi ni => decoderForward input_shape P.dec
        (maskLabel (tAdd2 (digitcapsF n_class routings.toNat P xi) ni) yi)) xs ys ns) := by
  have hmm := CapsNet_ok input_shape n_class batch_size routings m hm
  subst hmm
  exact ⟨rfl, rfl, rfl⟩

theorem C4_witness :
    (((mkModels [28, 28, 1] 10 3 16).train zeroParams [] []).2 =
      List.zipWith (fun xi yi => decoderForward [28, 28, 1] zeroParams.dec
        (maskLabel (digitcapsF 10 3 zeroParams xi) yi)) [] []) ∧
      (((mkModels [28, 28, 1] 10 3 16).eval zeroParams []).2 =
        List.map (fun xi => decoderForward [28, 28, 1] zeroParams.dec
          (maskNoLabel (digitcapsF 10 3 zeroParams xi))) []) ∧
      ((mkModels [28, 28, 1] 10 3 16).manip zeroParams [] [] [] =
        zipWith3 (fun xi yi ni => decoderForward [28, 28, 1] zeroParams.dec
          (maskLabel (tAdd2 (digitcapsF 10 3 zeroParams xi) ni) yi)) [] [] []) :=
  C4_shared_decoder_parameters [28, 28, 1] 10 16 3
    (mkModels [28, 28, 1] 10 3 16) rfl zeroParams [] [] []

theorem zipWith_add_getD (r q : List ℝ) (d : ℕ)
    (h1 : d < r.length) (h2 : d < q.length) :
    (List.zipWith (· + ·) r q).getD d 0 = r.getD d 0 + q.getD d 0 := by
  induction r generalizing q d with
  | nil => simp at h1
  | cons a as ih =>
    cases q with
    | nil => simp at h2
    | cons b bs =>
      cases d with
      | zero => simp
      | succ n =>
        simp only [List.zipWith_cons_cons, List.getD_cons_succ]
        exact ih bs n (by simpa using h1) (by simpa using h2)

theorem tAdd2_get2 (caps noise : List (List ℝ)) (j d : ℕ)
    (hj1 : j < caps.length) (hj2 : j < noise.length)
    (hd1 : d < (caps.getD j []).length) (hd2 : d < (noise.getD j []).length) :
    get2 (tAdd2 caps noise) j d = get2 caps j d + get2 noise j d := by
  unfold get2 tAdd2
  induction caps generalizing noise j with
  | nil => simp at hj1
  | cons r rs ih =>
    cases noise with
    | nil => simp at hj2
    | cons q qs =>
      cases j with
      | zero =>
        simp only [List.zipWith_cons_cons, List.getD_cons_zero]
        exact zipWith_add_getD r q d (by simpa using hd1) (by simpa using hd2)
      | succ n =>
        simp only [List.zipWith_cons_cons, List.getD_cons_succ]
        exact ih qs n (by simpa using hj1) (by simpa using hj2)
          (by simpa using hd1) (by simpa using hd2)

theorem zipWith_add_zeros (v : List ℝ) (n : ℕ) (h : v.length = n) :
    List.zipWith (· + ·) v (List.replicate n (0 : ℝ)) = v := by
  induction v generalizing n with
  | nil => simp
  | cons a as ih =>
    cases n with
    | zero => simp at h
    | succ k =>
      simp only [List.replicate_succ, List.zipWith_cons_cons, add_zero]
      rw [ih k (by simpa using h)]

theorem tAdd2_zero_right (caps : List (List ℝ)) :
    (∀ r ∈ caps, r.length = 16) → tAdd2 caps (zeroNoise caps.length) = caps := by
  unfold tAdd2 zeroNoise
  induction caps with
  | nil => intro _; simp
  | cons r rs ih =>
    intro h2
    rw [List.length_cons, List.replicate_succ, List.zipWith_cons_cons,
      zipWith_add_zeros r 16 (h2 r (List.mem_cons_self _ _)),
      ih (fun q hq => h2 q (List.mem_cons_of_mem _ hq))]

theorem zipWith3_cons {α β γ δ : Type _} (f : α → β → γ → δ) (x : α) (xs : List α)
    (y : β) (ys : List β) (z : γ) (zs : List γ) :
    zipWith3 f (x :: xs) (y :: ys) (z :: zs) = f x y z :: zipWith3 f xs ys zs := rfl

theorem zipWith3_map_right {α β γ δ : Type _} (f : α → β → γ → δ) (g : α → γ) :
    ∀ (xs : List α) (ys : List β),
      zipWith3 f xs ys (xs.map g) = List.zipWith (fun x y => f x y (g x)) xs ys := by
  intro xs
  induction xs with
  | nil => intro ys; simp [zipWith3]
  | cons x xs2 ih =>
    intro ys
    cases ys with
    | nil => simp [zipWith3]
    | cons y ys2 =>
      rw [List.map_cons, zipWith3_cons, ih ys2, List.zipWith_cons_cons]

/-- C5: the manipulate graph's output equals the decoder applied to the
label-masked `digitcaps + noise`, with the noise added elementwise to the
digit-capsule tensor before the label mask and decoder are applied; the
addition is elementwise entry by entry, and with all-zero noise the
manipulate graph reproduces the train graph's reconstruction. -/
theorem C5_manipulate_adds_noise_before_mask (input_shape : List ℕ)
    (n_class batch_size : ℕ) (routings : ℤ) (m : Models)
    (hm : CapsNet input_shape n_class routings batch_size = Except.ok m)
    (P : CapsParams) (xs : List Tensor3) (ys : List (List ℝ))
    (ns : List (List (List ℝ))) :
    (m.manip P xs ys ns = zipWith3 (fun xi yi ni => decoderForward input_shape P.dec
        (maskLabel (tAdd2 (digitcapsF n_class routings.toNat P xi) ni) yi)) xs ys ns) ∧
      (∀ (caps noise : List (List ℝ)) (j d : ℕ),
        j < caps.length → j < noise.length →
        d < (caps.getD j []).length → d < (noise.getD j []).length →
        get2 (tAdd2 caps noise) j d = get2 caps j d + get2 noise j d) ∧
      (1 ≤ routings →
        m.manip P xs ys (xs.map (fun _ => zeroNoise n_class)) = (m.train P xs ys).2) := by
  have hmm := CapsNet_ok input_shape n_class batch_size routings m hm
  subst hmm
  refine ⟨rfl, tAdd2_get2, ?_⟩
  intro hr
  have hr1 : 1 ≤ routings.toNat := by omega
  have hd : ∀ xi : Tensor3,
      tAdd2 (digitcapsF n_class routings.toNat P xi) (zeroNoise n_class) =
        digitcapsF n_class routings.toNat P xi := by
    intro xi
    obtain ⟨hl, hrows⟩ := digitcapsF_shape n_class routings.toNat hr1 P xi
    have hz : zeroNoise n_class =
        zeroNoise (digitcapsF n_class routings.toNat P xi).length := by rw [hl]
    rw [hz]
    exact tAdd2_zero_right _ hrows
  show manipForward input_shape n_class routings.toNat P xs ys
      (xs.map (fun _ => zeroNoise n_class)) =
    (trainForward input_shape n_class routings.toNat P xs ys).2
  unfold manipForward trainForward
  rw [zipWith3_map_right]
  have hfe : (fun (xi : Tensor3) (yi : List ℝ) => decoderForward input_shape P.dec
      (maskLabel (tAdd2 (digitcapsF n_class routings.toNat P xi) (zeroNoise n_class)) yi)) =
      (fun xi yi => decoderForward input_shape P.dec
        (maskLabel (digitcapsF n_class routings.toNat P xi) yi)) := by
    funext xi yi
    rw [hd xi]
  rw [hfe]

theorem C5_witness :
    ((mkModels [28, 28, 1] 10 3 16).manip zeroParams [] [] [] =
      zipWith3 (fun xi yi ni => decoderForward [28, 28, 1] zeroParams.dec
        (maskLabel (tAdd2 (digitcapsF 10 3 zeroParams xi) ni) yi)) [] [] []) ∧
      (∀ (caps noise : List (List ℝ)) (j d : ℕ),
        j < caps.length → j < noise.length →
        d < (caps.getD j []).length → d < (noise.getD j []).length →
        get2 (tAdd2 caps noise) j d = get2 caps j d + get2 noise j d) ∧
      (1 ≤ (3 : ℤ) →
        (mkModels [28, 28, 1] 10 3 16).manip zeroParams [] []
            (([] : List Tensor3).map (fun _ => zeroNoise 10)) =
          ((mkModels [28, 28, 1] 10 3 16).train zeroParams [] []).2) :=
  C5_manipulate_adds_noise_before_mask [28, 28, 1] 10 16 3
    (mkModels [28, 28, 1] 10 3 16) rfl zeroParams [] [] []

/-- C6: the decoder built by `CapsNet` is exactly the four-layer composition
dense(512, relu), dense(1024, relu), dense(prod input_shape, sigmoid),
reshape to the input shape — it contains no other layers — and running that
`Sequential` coincides with the `decoderForward` used by the three graphs. -/
theorem C6_decoder_is_exact_composition (input_shape : List ℕ)
    (n_class batch_size : ℕ) (P : DecParams) (v : List ℝ) :
    decoderSeq input_shape n_class batch_size =
      [LayerSpec.dense 512 true, LayerSpec.dense 1024 true,
        LayerSpec.dense input_shape.prod false, LayerSpec.reshape input_shape] ∧
      (decoderSeq input_shape n_class batch_size).length = 4 ∧
      runSeq (decoderSeq input_shape n_class batch_size)
          [(P.w1, P.b1), (P.w2, P.b2), (P.w3, P.b3)] (TVal.vec v) =
        TVal.ten (decoderForward input_shape P v) :=
  ⟨rfl, rfl, rfl⟩

end CapsVerif
